import Mathlib

/-!
Verification development for the Artemis-v2 diagnostic/import scripts.

The embedding models, over exact rationals:
- `src/scripts/import-nexus-spawns.py`: fetch/decode of the remote feed, the
  `nexus_spawns` table (SQLite, `id INTEGER PRIMARY KEY`), the per-record
  insert loop with `INSERT OR REPLACE`, and the two diagnostic queries
  (nearest-spawns proximity query, Foul query).
- `src/scripts/analyze-hp-matches.py`: the HP tolerance-band query over the
  `mobs` table.
- `src/scripts/read-session.py`: the session summary phase, the
  `conn.close()` at its end, and the trailing statements that run on the
  closed connection.

JSON documents are modelled by `JVal` (the result of `json.loads`), SQLite
storage cells by `SVal`.  SQLite numeric values (integer and real) are
collapsed into one rational constructor: the queries under study compare
numbers numerically and never distinguish the two storage classes.
-/

namespace Artemis

/-- A JSON value as produced by `json.loads`: null, bool, number, string,
array, or object.  An object models an already-parsed Python dict, so its
keys are assumed distinct (in `json.loads`, duplicate keys collapse,
last one wins, before any of the scripts see the value). -/
inductive JVal where
  | jnull : JVal
  | jbool (b : Bool) : JVal
  | jnum (q : ℚ) : JVal
  | jstr (s : String) : JVal
  | jarr (xs : List JVal) : JVal
  | jobj (fs : List (String × JVal)) : JVal

/-- A SQLite storage cell: NULL, a number (INTEGER and REAL collapsed, since
every query modelled here treats them uniformly), or TEXT. -/
inductive SVal where
  | null : SVal
  | num (q : ℚ) : SVal
  | text (s : String) : SVal
deriving DecidableEq

/-- Look a key up in a parsed JSON object's field list.  Returns `none` when
the key is absent; a key bound to JSON null yields `some .jnull` (Python
distinguishes an absent key from a key bound to `None`). -/
def jlookup (fs : List (String × JVal)) (k : String) : Option JVal :=
  match fs.find? (fun p => p.1 == k) with
  | none => none
  | some p => some p.2

/-- Python `d.get(k, default)`: the default applies only when the key is
absent; a key bound to null still returns null. -/
def pyGetD (fs : List (String × JVal)) (k : String) (d : JVal) : JVal :=
  match jlookup fs k with
  | none => d
  | some v => v

/-- Python truthiness of a JSON value (`1 if props.get(k) else 0`):
None, False, 0, "", [] and even empty objects are falsy. -/
def truthy : JVal → Bool
  | .jnull => false
  | .jbool b => b
  | .jnum q => q != 0
  | .jstr s => s != ""
  | .jarr xs => !xs.isEmpty
  | .jobj fs => !fs.isEmpty

/-- Binding a Python value as a SQLite parameter (`cursor.execute` args):
None binds NULL, bool binds as 0/1, numbers and strings bind directly, and a
list or dict raises `sqlite3.InterfaceError` (modelled as `.error`). -/
def bindVal : JVal → Except Unit SVal
  | .jnull => .ok .null
  | .jbool b => .ok (.num (if b then 1 else 0))
  | .jnum q => .ok (.num q)
  | .jstr s => .ok (.text s)
  | .jarr _ => .error ()
  | .jobj _ => .error ()

/-- Models `spawn.get(k, {})` followed by attribute access on the result:
an absent key yields the empty dict, a present object yields its fields, and
any other present value (null, number, string, array, bool) makes the later
`.get` attribute access raise `AttributeError` (modelled as `.error`). -/
def getObjOrEmpty (fs : List (String × JVal)) (k : String) :
    Except Unit (List (String × JVal)) :=
  match jlookup fs k with
  | none => .ok []
  | some (.jobj g) => .ok g
  | some _ => .error ()

/-- Parse a decimal digit string (with optional leading minus) to an integer,
modelling SQLite's INTEGER-affinity coercion of a TEXT value bound to the
`id INTEGER PRIMARY KEY` column.  (SQLite also accepts some further forms,
e.g. surrounding whitespace or a lossless real; those corners are not
exercised by any claim and are conservatively rejected here.) -/
def parseDigits : List Char → Option ℕ
  | [] => none
  | cs => cs.foldl
      (fun acc c => match acc with
        | none => none
        | some a => if c.isDigit then some (a * 10 + (c.toNat - 48)) else none)
      (some 0)

/-- Integer value of a TEXT cell under INTEGER affinity, if any. -/
def parseIntText (s : String) : Option ℤ :=
  match s.data with
  | '-' :: rest => (parseDigits rest).map (fun n => -(n : ℤ))
  | cs => (parseDigits cs).map (fun n => (n : ℤ))

/-- Resolve the bound value of the `id` column against
`id INTEGER PRIMARY KEY`: NULL means the rowid will be auto-assigned
(`.ok none`), an integral number is used as the rowid, a number with a
fractional part or a non-numeric text raises `datatype mismatch`
(modelled as `.error`). -/
def svalToId : SVal → Except Unit (Option ℤ)
  | .null => .ok none
  | .num q => if q.den = 1 then .ok (some q.num) else .error ()
  | .text s =>
      match parseIntText s with
      | some i => .ok (some i)
      | none => .error ()

/-- The non-key column values of one `nexus_spawns` row, as extracted by
the insert loop.  `dataJson` archives the verbatim source payload
(`json.dumps(spawn)` in the script; modelled as the parsed value itself,
since `json.dumps` is a deterministic injective rendering and no claim
inspects the rendered text). -/
structure RowData where
  name : SVal
  planet : SVal
  type : SVal
  shape : SVal
  lon : SVal
  lat : SVal
  density : SVal
  shared : SVal
  event : SVal
  notes : SVal
  dataJson : JVal

/-- One feed element's fate in the import loop of
`import-nexus-spawns.py` (lines 58-91): either `.error` (some step inside the
`try` raised, so the loop's `except` counts the record as skipped) or the
optional explicit id together with the extracted column values.

Mirrors the script:
- `props = spawn.get('Properties', {})`, `planet_data = spawn.get('Planet', {})`,
  `coords = props.get('Coordinates', {})` — raising `AttributeError` if the
  element, or a present non-object value, is not a dict;
- extraction of each bound parameter, where binding a list/dict raises;
- SQLite constraint checks on insert: `name TEXT NOT NULL`,
  `planet TEXT NOT NULL`, and the `id INTEGER PRIMARY KEY` type check. -/
def recordOutcome : JVal → Except Unit (Option ℤ × RowData)
  | .jobj fs => do
      let props ← getObjOrEmpty fs "Properties"
      let planetData ← getObjOrEmpty fs "Planet"
      let coords ← getObjOrEmpty props "Coordinates"
      let idv ← bindVal (pyGetD fs "Id" .jnull)
      let namev ← bindVal (pyGetD fs "Name" (.jstr "Unknown Spawn"))
      let planetv ← bindVal (pyGetD planetData "Name" (.jstr "Unknown"))
      let typev ← bindVal (pyGetD props "Type" .jnull)
      let shapev ← bindVal (pyGetD props "Shape" .jnull)
      let lonv ← bindVal (pyGetD coords "Longitude" .jnull)
      let latv ← bindVal (pyGetD coords "Latitude" .jnull)
      let densv ← bindVal (pyGetD props "Density" .jnull)
      let notesv ← bindVal (pyGetD props "Notes" .jnull)
      if namev = SVal.null then .error () else
      if planetv = SVal.null then .error () else
      match svalToId idv with
      | .error _ => .error ()
      | .ok oid =>
          .ok (oid,
            { name := namev, planet := planetv, type := typev, shape := shapev,
              lon := lonv, lat := latv, density := densv,
              shared := .num (if truthy (pyGetD props "IsShared" .jnull) then 1 else 0),
              event := .num (if truthy (pyGetD props "IsEvent" .jnull) then 1 else 0),
              notes := notesv, dataJson := .jobj fs })
  | _ => .error ()

/-- One stored row of `nexus_spawns`.  `createdAt` is the
`created_at INTEGER DEFAULT (strftime('%s','now'))` column: the insert never
lists it, so SQLite fills it with the default (the current time) on every
insert — including the fresh insert a conflicting `INSERT OR REPLACE`
performs. -/
structure SpawnRow where
  id : ℤ
  data : RowData
  createdAt : ℤ

/-- The store, as the rowid-ordered list of rows a table scan yields. -/
abbrev Store := List SpawnRow

/-- Find a row by id (at most one exists in a well-formed store). -/
def lookupId (i : ℤ) : Store → Option SpawnRow
  | [] => none
  | r :: rs => if r.id = i then some r else lookupId i rs

/-- Largest rowid in use, if any. -/
def maxId : Store → Option ℤ
  | [] => none
  | r :: rs =>
      some (match maxId rs with
            | none => r.id
            | some m => max r.id m)

/-- The rowid SQLite auto-assigns when NULL is inserted into an
INTEGER PRIMARY KEY column: one more than the largest rowid in use, or 1 for
an empty table. -/
def newId (db : Store) : ℤ :=
  match maxId db with
  | none => 1
  | some m => m + 1

/-- `INSERT OR REPLACE` keyed on the rowid: if the id is present the old row
is deleted and the new row inserted with the same rowid (so it keeps its
position in rowid order); otherwise the row is inserted at its rowid
position. -/
def upsertRow (r : SpawnRow) : Store → Store
  | [] => [r]
  | x :: xs =>
      if x.id = r.id then r :: xs
      else if r.id < x.id then r :: x :: xs
      else x :: upsertRow r xs

/-- The import loop (lines 58-91): each element is extracted and inserted
inside `try`; any raise is caught, printed and counted in `skipped`; a
successful insert increments `inserted`.  `t` is the wall-clock time SQLite's
`strftime('%s','now')` default evaluates to. -/
def syncAux (t : ℤ) : List JVal → Store → ℕ → ℕ → Store × ℕ × ℕ
  | [], db, ins, sk => (db, ins, sk)
  | s :: rest, db, ins, sk =>
      match recordOutcome s with
      | .error _ => syncAux t rest db ins (sk + 1)
      | .ok (oid, data) =>
          let i : ℤ := match oid with
                       | none => newId db
                       | some j => j
          syncAux t rest (upsertRow ⟨i, data, t⟩ db) (ins + 1) sk

/-- Run the whole spawn sync over a decoded top-level array. -/
def sync (feed : List JVal) (t : ℤ) (db : Store) : Store × ℕ × ℕ :=
  syncAux t feed db 0 0

/-- Does this element survive extraction and insertion?  Exactly the records
counted in `inserted`. -/
def okRec (s : JVal) : Bool :=
  match recordOutcome s with
  | .ok _ => true
  | .error _ => false

/-- Does this element insert with an auto-assigned rowid (its `Id` field was
absent or null, yet nothing else raised)?  These records are the ones whose
stored id depends on the current store contents. -/
def isAuto (s : JVal) : Bool :=
  match recordOutcome s with
  | .ok (none, _) => true
  | _ => false

/-- Keep only the columns that survive a replace unchanged: everything but
`createdAt`.  Used to compare store contents modulo the creation
timestamp. -/
def stripRow (r : SpawnRow) : ℤ × RowData := (r.id, r.data)

/-- A store is well-formed when its rowid scan order is strictly increasing
(which is how SQLite stores and scans the table; it also forces id
uniqueness). -/
def StoreSorted (db : Store) : Prop :=
  db.Pairwise (fun a b => a.id < b.id)

/-- Left-biased choice on options (used to state which feed element
determines a stored row: the last matching element wins, so the recursion
gives the tail priority). -/
def oor {α : Type} : Option α → Option α → Option α
  | some x, _ => some x
  | none, b => b

/-- The row element `s` would store under id `i` at time `t`, if it is an
explicit-id record for `i`. -/
def headMatch (t i : ℤ) (s : JVal) : Option SpawnRow :=
  match recordOutcome s with
  | .ok (some j, data) => if j = i then some ⟨j, data, t⟩ else none
  | _ => none

/-- The row the feed as a whole stores under id `i` (the last explicit-id
record for `i` wins, matching replace semantics). -/
def lastMatch (t i : ℤ) : List JVal → Option SpawnRow
  | [] => none
  | s :: rest => oor (lastMatch t i rest) (headMatch t i s)

/-- The whole script around the loop: the `try` at lines 20-27 covers both
the network fetch and the top-level `json.loads`; any raise there prints an
error and calls `exit(1)` before `sqlite3.connect` ever runs, so the store
is untouched.  A successfully decoded payload (here: already known to be a
top-level array, the shape every claim conditions on) proceeds to the sync
loop and reports the aggregate counts. -/
def runImport (fetched : Except Unit (List JVal)) (t : ℤ) (db : Store) :
    Store × Except Unit (ℕ × ℕ) :=
  match fetched with
  | .error _ => (db, .error ())
  | .ok feed =>
      let r := sync feed t db
      (r.1, .ok r.2)

/-! ## Integer square root and SQLite `ROUND(SQRT(...))` -/

/-- Helper for `isqrt`: largest `j ≤ k` with `j * j ≤ n` (0 if none). -/
def isqrtAux (n : ℕ) : ℕ → ℕ
  | 0 => 0
  | k + 1 => if (k + 1) * (k + 1) ≤ n then k + 1 else isqrtAux n k

/-- Integer (floor) square root, by bounded descent — kernel-reducible. -/
def isqrt (n : ℕ) : ℕ := isqrtAux n n

/-- Floor of a nonnegative rational as a natural number (0 for negatives),
written with raw integer division so the kernel can evaluate it. -/
def ratFloorNat (q : ℚ) : ℕ := (q.num / (q.den : ℤ)).toNat

/-- `ROUND(SQRT(q))` for a nonnegative rational `q`: the nearest natural to
`√q`, halves rounded up (SQLite's `round` rounds halves away from zero, and
the operand here is nonnegative).  Computed exactly: the floor square root
`r` of `⌊q⌋` is the floor of `√q`, and the result is `r + 1` exactly when
`(r + 1/2)² ≤ q`. -/
def roundSqrt (q : ℚ) : ℕ :=
  if ((isqrt (ratFloorNat q) : ℚ) + 1 / 2) ^ 2 ≤ q then isqrt (ratFloorNat q) + 1
  else isqrt (ratFloorNat q)

/-- Numeric coercion SQLite applies when a stored cell is used in
arithmetic: numbers stand for themselves; NULL never reaches arithmetic in
the modelled queries (the WHERE clause filters it out first), and a
non-numeric TEXT cell coerces to 0.  (SQLite would parse a numeric prefix of
a text cell; coordinates are numeric in the feed, so that corner is
collapsed to 0 here.) -/
def toNum : SVal → ℚ
  | .null => 0
  | .num q => q
  | .text _ => 0

/-- The squared planar distance the nearest-spawns query computes per row:
`(center_lon - x)*(center_lon - x) + (center_lat - y)*(center_lat - y)`. -/
def sqDistTo (o : ℚ × ℚ) (r : SpawnRow) : ℚ :=
  (toNum r.data.lon - o.1) * (toNum r.data.lon - o.1) +
    (toNum r.data.lat - o.2) * (toNum r.data.lat - o.2)

/-! ## Stable sort by key (models `ORDER BY key` with ties left in scan
order, the tie behaviour §4.2 of the spec ascribes to these queries) -/

/-- Insert `x` after every element whose key is strictly smaller — the
stable insertion step. -/
def insertK {α β : Type} [LinearOrder β] (key : α → β) (x : α) :
    List α → List α
  | [] => [x]
  | y :: ys => if key y < key x then y :: insertK key x ys else x :: y :: ys

/-- Stable insertion sort by key: equal keys keep their input order. -/
def sortK {α β : Type} [LinearOrder β] (key : α → β) : List α → List α
  | [] => []
  | x :: xs => insertK key x (sortK key xs)

/-- The nearest-spawns query of `import-nexus-spawns.py` (lines 120-133),
planet, origin and limit generalised from the script's literal
`'Calypso'`, `(79085, 67537)` and `10`:

`SELECT id, name, planet, center_lon, center_lat, ROUND(SQRT(...)) AS
distance FROM nexus_spawns WHERE planet = ? AND center_lon IS NOT NULL AND
center_lat IS NOT NULL ORDER BY distance LIMIT ?`.

`ORDER BY distance` resolves to the output alias, i.e. the ROUNDED value. -/
def nearestQuery (db : Store) (p : String) (o : ℚ × ℚ) (lim : ℕ) :
    List (SpawnRow × ℕ) :=
  (sortK (fun pr => pr.2)
    ((db.filter fun r =>
        decide (r.data.planet = SVal.text p ∧
          r.data.lon ≠ SVal.null ∧ r.data.lat ≠ SVal.null)).map
      fun r => (r, roundSqrt (sqDistTo o r)))).take lim

/-! ## HP candidate matcher (`analyze-hp-matches.py`) -/

/-- One row of the `mobs` catalog table. -/
structure MobRow where
  name : String
  hp : ℚ
  maturity : String
  planet : String
deriving DecidableEq

/-- The rows the HP band query admits (its WHERE clause):
`hp BETWEEN min_hp AND max_hp AND planet = ?` — BETWEEN is inclusive at both
edges. -/
def hpBandRows (mobs : List MobRow) (p : String) (minHp maxHp : ℚ) :
    List MobRow :=
  mobs.filter fun m => decide (minHp ≤ m.hp ∧ m.hp ≤ maxHp ∧ m.planet = p)

/-- The HP band query of `analyze-hp-matches.py` (lines 23-30), with the
planet, band and limit as parameters (the script binds `planet = 'Calypso'`,
`min_hp = hp*0.8`, `max_hp = hp*1.2`, `LIMIT 5`):
`SELECT name, hp, maturity, planet FROM mobs WHERE hp BETWEEN ? AND ? AND
planet = ? ORDER BY ABS(hp - ?) ASC LIMIT ?`, paired here with the sort key
`ABS(hp - observed)` it orders by. -/
def hpBandQuery (mobs : List MobRow) (p : String) (minHp maxHp hp : ℚ)
    (lim : ℕ) : List (MobRow × ℚ) :=
  (sortK (fun pr => pr.2)
      ((hpBandRows mobs p minHp maxHp).map fun m => (m, |m.hp - hp|))).take lim

/-- The matcher at the tolerance-band level (§4.3 of the spec): band
`[hp*(1-t), hp*(1+t)]`; the script instantiates `t = 0.2`, for which
`hp*(1-t) = hp*0.8` and `hp*(1+t) = hp*1.2` exactly. -/
def matchByHP (mobs : List MobRow) (p : String) (hp t : ℚ) (lim : ℕ) :
    List (MobRow × ℚ) :=
  hpBandQuery mobs p (hp * (1 - t)) (hp * (1 + t)) hp lim

/-! ## Session report reader (`read-session.py`)

The script opens a connection, prints a summary of the most recent session
(session row, stats blob, event breakdown), closes the connection at line 80
— and then keeps going: lines 84 onward execute further statements
(`PRAGMA table_info`, the recent-sessions listing, the loadout read) on the
closed connection, which raises `sqlite3.ProgrammingError` at the first such
statement and aborts the script. -/

namespace ReadSession

open Artemis

/-- One row of the externally-owned `sessions` table.  The `stats` TEXT
column is modelled as an optional already-parsed JSON document: both a NULL
cell and an empty string are falsy in `if stats_json:`, so they collapse to
`none`; a present blob is assumed to be the well-formed JSON object the
owning application writes. -/
structure SessionRow where
  id : ℤ
  name : String
  loadoutId : Option ℤ
  duration : ℚ
  startTime : ℚ
  stats : Option JVal

/-- One row of the `events` table (payload as parsed JSON). -/
structure EventRow where
  sessionId : ℤ
  etype : String
  payload : JVal

/-- One row of the `loadouts` table (costs blob as parsed JSON or NULL). -/
structure LoadoutRow where
  id : ℤ
  name : String
  costs : Option JVal
  useManualCost : JVal
  manualCostOverride : JVal

/-- The three tables the script reads. -/
structure SessionDB where
  sessions : List SessionRow
  events : List EventRow
  loadouts : List LoadoutRow

/-- `stats.get(k, 0)` on the parsed stats object, numeric fields.  A
non-object or non-numeric field would make the script's float formatting
raise; the owning application writes numeric stats, so that corner is
collapsed to the default. -/
def getNumD (j : JVal) (k : String) (d : ℚ) : ℚ :=
  match j with
  | .jobj fs =>
      match jlookup fs k with
      | some (.jnum q) => q
      | _ => d
  | _ => d

/-- The numeric stats the summary prints when a stats blob is present, each
defaulted to 0 when the field is absent. -/
structure StatsOut where
  kills : ℚ
  lootValue : ℚ
  ammoCost : ℚ
  profit : ℚ

/-- `SELECT ... ORDER BY start_time DESC LIMIT 1`: some session with the
maximal start time (`none` on an empty table).  SQLite leaves the order of
equal keys unspecified; this model keeps the earliest such row. -/
def mostRecent : List SessionRow → Option SessionRow
  | [] => none
  | s :: rest =>
      match mostRecent rest with
      | none => some s
      | some m => some (if s.startTime < m.startTime then m else s)

/-- `SELECT type, COUNT(*) FROM events WHERE session_id = ? GROUP BY type
ORDER BY COUNT(*) DESC`: the per-type counts of the session's events,
largest first. -/
def eventCounts (evs : List EventRow) (sid : ℤ) : List (String × ℕ) :=
  let mine := evs.filter fun e => decide (e.sessionId = sid)
  let types := (mine.map fun e => e.etype).dedup
  (sortK (fun pr => pr.2)
      (types.map fun ty => (ty, (mine.filter fun e => decide (e.etype = ty)).length))).reverse

/-- Everything the initial summary (lines 14-78) reports.  `statsOut` is
`none` when the stats blob was missing — the script prints a warning there
instead of zeros but does not fail.  The sample-GPS printing (lines 66-78)
produces no data beyond `gpsCount` and is elided. -/
structure Summary where
  sessionName : String
  loadoutId : Option ℤ
  duration : ℚ
  statsOut : Option StatsOut
  eventCounts : List (String × ℕ)
  totalEvents : ℕ
  gpsCount : ℕ

/-- The initial summary of the most recent session. -/
def summarize (db : SessionDB) (s : SessionRow) : Summary :=
  let counts := eventCounts db.events s.id
  { sessionName := s.name
    loadoutId := s.loadoutId
    duration := s.duration
    statsOut := s.stats.map fun j =>
      { kills := getNumD j "totalKills" 0
        lootValue := getNumD j "totalLootTTValue" 0
        ammoCost := getNumD j "totalAmmoCost" 0
        profit := getNumD j "profit" 0 }
    eventCounts := counts
    totalEvents := counts.foldl (fun a pr => a + pr.2) 0
    gpsCount :=
      (db.events.filter fun e =>
        decide (e.sessionId = s.id ∧ e.etype = "GPS_UPDATE")).length }

/-- Executing one statement through the (possibly closed) connection:
`sqlite3` raises `ProgrammingError: Cannot operate on a closed database`
when the handle has been closed (modelled as `.error`). -/
def execOn {α : Type} (connOpen : Bool) (a : α) : Except Unit α :=
  if connOpen then .ok a else .error ()

/-- The cost lines the loadout section prints: `none` when the table has no
loadout; `some none` when the first loadout's costs blob is NULL (the
`if costs_json:` guard skips the cost lines without failing); otherwise the
`totalPerShot` (defaulted to 0) and the raw `manualCostOverride` lookup. -/
def loadoutReport (lo : Option LoadoutRow) : Option (Option (ℚ × Option JVal)) :=
  lo.map fun l =>
    l.costs.map fun c =>
      (getNumD c "totalPerShot" 0,
       match c with
       | .jobj fs => jlookup fs "manualCostOverride"
       | _ => none)

/-- What one iteration of the recent-sessions loop (lines 110-146) reports:
the event total, the per-type breakdown, and a sample loot value if any. -/
structure RecentReport where
  sessionName : String
  eventTotal : ℕ
  counts : List (String × ℕ)
  sampleLoot : Option ℚ

/-- What the trailing portion (lines 84-168) would report if its statements
could execute. -/
structure TrailingOut where
  recents : List RecentReport
  loadout : Option (Option (ℚ × Option JVal))

/-- `SELECT id, name, loadout_id, duration FROM sessions ORDER BY start_time
DESC LIMIT 3` — a descending sort by start time, earliest-listed ties first,
truncated to three rows. -/
def recentSessions (db : SessionDB) : List SessionRow :=
  ((sortK (fun s => s.startTime) db.sessions).reverse).take 3

/-- The report of one loop iteration, lines 110-146: an event count query, a
breakdown query and a sample-loot query, each executed on the connection. -/
def recentReport (connOpen : Bool) (db : SessionDB) (s : SessionRow) :
    Except Unit RecentReport := do
  let total ← execOn connOpen
    ((db.events.filter fun e => decide (e.sessionId = s.id)).length)
  let counts ← execOn connOpen (eventCounts db.events s.id)
  let loot ← execOn connOpen
    (((db.events.filter fun e =>
        decide (e.sessionId = s.id ∧ e.etype = "LOOT_RECEIVED")).head?).map
      fun e => getNumD e.payload "totalTTValue" 0)
  pure ⟨s.name, total, counts, loot⟩

/-- The trailing portion of the script (lines 84-168): two PRAGMA
statements, the recent-sessions listing with its per-session queries, and
the loadout read — every one of them executed through the connection handle
that was closed at line 80. -/
def trailing (connOpen : Bool) (db : SessionDB) : Except Unit TrailingOut := do
  let _ ← execOn connOpen ()                -- PRAGMA table_info(sessions)
  let _ ← execOn connOpen ()                -- PRAGMA table_info(events)
  let recents ← execOn connOpen (recentSessions db)
  let reports ← recents.mapM (recentReport connOpen db)
  let lo ← execOn connOpen db.loadouts.head?
  pure ⟨reports, loadoutReport lo⟩

/-- The whole script.  `none`: no sessions exist, the script prints a notice,
closes the connection and exits cleanly at line 25.  Otherwise it computes
the initial summary, closes the connection (line 80, after which the handle
is closed for good — the second `conn.close()` at line 167 is never reached
on the open handle), and runs the trailing portion on the closed
connection. -/
def runScript (db : SessionDB) : Option (Summary × Except Unit TrailingOut) :=
  match mostRecent db.sessions with
  | none => none
  | some s => some (summarize db s, trailing false db)

/-- Did a step of the script complete without raising? -/
def okE {α : Type} : Except Unit α → Bool
  | .ok _ => true
  | .error _ => false

/-- A database exhibiting every missing-data case of §4.4 at once: one
session whose stats blob is the empty JSON object, no events, and one
loadout whose costs blob is NULL. -/
def dbC9 : SessionDB :=
  { sessions := [⟨1, "S", none, 3600, 5, some (.jobj [])⟩]
    events := []
    loadouts := [⟨1, "L", none, .jnull, .jnull⟩] }

/-- A minimal database with one session, enough for the initial summary to
complete. -/
def dbC10 : SessionDB :=
  { sessions := [⟨2, "T", some 4, 60, 9, none⟩]
    events := [⟨2, "GPS_UPDATE", .jobj []⟩]
    loadouts := [] }

end ReadSession

/-! ## Concrete instances used by witnesses and counterexamples -/

/-- A feed record with no `Id` key at all (name and planet present). -/
def recNoId : JVal :=
  .jobj [("Name", .jstr "A"), ("Planet", .jobj [("Name", .jstr "Calypso")])]

/-- The fully-shaped record of the spec §8 scenario: id 1, name "A", planet
Calypso, coordinates (100, 100). -/
def recFull : JVal :=
  .jobj [("Id", .jnum 1), ("Name", .jstr "A"),
    ("Planet", .jobj [("Name", .jstr "Calypso")]),
    ("Properties", .jobj [("Coordinates",
      .jobj [("Longitude", .jnum 100), ("Latitude", .jnum 100)])])]

/-- A stored spawn at (1, 3): squared distance 10 from the origin, true
distance √10 ≈ 3.162, displayed distance 3. -/
def rowA : SpawnRow :=
  ⟨1, ⟨.text "A", .text "Calypso", .null, .null, .num 1, .num 3, .null,
    .num 0, .num 0, .null, .jnull⟩, 0⟩

/-- A stored spawn at (3, 0): squared distance 9 from the origin, true
distance 3, displayed distance 3 — strictly closer than `rowA` at full
precision, yet tied after rounding. -/
def rowB : SpawnRow :=
  ⟨2, ⟨.text "B", .text "Calypso", .null, .null, .num 3, .num 0, .null,
    .num 0, .num 0, .null, .jnull⟩, 0⟩

/-- A store whose rowid order lists `rowA` (farther at full precision)
before `rowB` (closer). -/
def storeC3 : Store := [rowA, rowB]

/-- A catalog mob whose HP sits exactly on a band edge for observed HP 125
at tolerance 0.2: `125 * (1 - 0.2) = 100`. -/
def mob100 : MobRow := ⟨"Foul Young", 100, "Young", "Calypso"⟩

/-! ## Square root and rounding lemmas -/

theorem isqrtAux_sq_le (n k : ℕ) : isqrtAux n k * isqrtAux n k ≤ n := by
  induction k with
  | zero => simp [isqrtAux]
  | succ k ih =>
      unfold isqrtAux
      split
      · assumption
      · exact ih

theorem isqrtAux_lt (n k : ℕ) (h : n < (k + 1) * (k + 1)) :
    n < (isqrtAux n k + 1) * (isqrtAux n k + 1) := by
  induction k with
  | zero => simpa [isqrtAux] using h
  | succ k ih =>
      unfold isqrtAux
      split
      · exact h
      · next hc => exact ih (Nat.lt_of_not_le hc)

theorem isqrt_sq_le (n : ℕ) : isqrt n * isqrt n ≤ n := isqrtAux_sq_le n n

theorem lt_isqrt_succ (n : ℕ) : n < (isqrt n + 1) * (isqrt n + 1) :=
  isqrtAux_lt n n (by nlinarith)

theorem ratFloorNat_int (q : ℚ) (hq : 0 ≤ q) : (ratFloorNat q : ℤ) = ⌊q⌋ := by
  have h0 : (0 : ℤ) ≤ ⌊q⌋ := Int.floor_nonneg.mpr hq
  unfold ratFloorNat
  rw [← Rat.floor_def]
  exact Int.toNat_of_nonneg h0

theorem ratFloorNat_le (q : ℚ) (hq : 0 ≤ q) : (ratFloorNat q : ℚ) ≤ q := by
  have h1 : ((⌊q⌋ : ℤ) : ℚ) ≤ q := Int.floor_le q
  have h2 : ((ratFloorNat q : ℤ) : ℚ) = ((⌊q⌋ : ℤ) : ℚ) := by
    rw [ratFloorNat_int q hq]
  calc (ratFloorNat q : ℚ) = ((ratFloorNat q : ℤ) : ℚ) := by push_cast; ring
  _ = ((⌊q⌋ : ℤ) : ℚ) := h2
  _ ≤ q := h1

theorem lt_ratFloorNat_add_one (q : ℚ) (hq : 0 ≤ q) :
    q < (ratFloorNat q : ℚ) + 1 := by
  have h1 : q < ((⌊q⌋ : ℤ) : ℚ) + 1 := Int.lt_floor_add_one q
  have h2 : ((ratFloorNat q : ℤ) : ℚ) = ((⌊q⌋ : ℤ) : ℚ) := by
    rw [ratFloorNat_int q hq]
  calc q < ((⌊q⌋ : ℤ) : ℚ) + 1 := h1
  _ = (ratFloorNat q : ℚ) + 1 := by rw [← h2]; push_cast; ring

theorem roundSqrt_upper (q : ℚ) (hq : 0 ≤ q) :
    q < ((roundSqrt q : ℚ) + 1 / 2) ^ 2 := by
  unfold roundSqrt
  have hfl : (ratFloorNat q : ℚ) ≤ q := ratFloorNat_le q hq
  have hflt : q < (ratFloorNat q : ℚ) + 1 := lt_ratFloorNat_add_one q hq
  have hsq : ratFloorNat q < (isqrt (ratFloorNat q) + 1) * (isqrt (ratFloorNat q) + 1) :=
    lt_isqrt_succ (ratFloorNat q)
  have hsqQ : (ratFloorNat q : ℚ) + 1 ≤
      ((isqrt (ratFloorNat q) : ℚ) + 1) * ((isqrt (ratFloorNat q) : ℚ) + 1) := by
    have : (ratFloorNat q : ℕ) + 1 ≤ (isqrt (ratFloorNat q) + 1) * (isqrt (ratFloorNat q) + 1) :=
      hsq
    exact_mod_cast this
  split
  · push_cast
    nlinarith [Nat.cast_nonneg (α := ℚ) (isqrt (ratFloorNat q))]
  · next hc => exact lt_of_not_le hc

theorem roundSqrt_lower (q : ℚ) (hq : 0 ≤ q) :
    roundSqrt q = 0 ∨ ((roundSqrt q : ℚ) - 1 / 2) ^ 2 ≤ q := by
  unfold roundSqrt
  have hfl : (ratFloorNat q : ℚ) ≤ q := ratFloorNat_le q hq
  have hsq : isqrt (ratFloorNat q) * isqrt (ratFloorNat q) ≤ ratFloorNat q :=
    isqrt_sq_le (ratFloorNat q)
  have hsqQ : ((isqrt (ratFloorNat q) : ℚ)) * ((isqrt (ratFloorNat q) : ℚ)) ≤
      (ratFloorNat q : ℚ) := by exact_mod_cast hsq
  split
  · next hc =>
      right
      push_cast
      nlinarith [hc]
  · by_cases h0 : isqrt (ratFloorNat q) = 0
    · exact .inl h0
    · right
      have h1 : (1 : ℚ) ≤ (isqrt (ratFloorNat q) : ℚ) := by
        exact_mod_cast Nat.one_le_iff_ne_zero.mpr h0
      nlinarith

theorem roundSqrt_eq_of (q : ℚ) (n : ℕ) (hq : 0 ≤ q)
    (h1 : n = 0 ∨ ((n : ℚ) - 1 / 2) ^ 2 ≤ q)
    (h2 : q < ((n : ℚ) + 1 / 2) ^ 2) : roundSqrt q = n := by
  rcases roundSqrt_lower q hq with b1 | b1 <;>
    rcases Nat.lt_trichotomy (roundSqrt q) n with hlt | heq | hgt
  · exfalso
    rcases h1 with rfl | hb
    · omega
    · have hup := roundSqrt_upper q hq
      rw [b1] at hup
      have hn1 : (1 : ℚ) ≤ (n : ℚ) := by
        exact_mod_cast Nat.one_le_iff_ne_zero.mpr (by omega)
      nlinarith
  · exact heq
  · exfalso
    omega
  · exfalso
    rcases h1 with rfl | hb
    · have hm1 : (1 : ℚ) ≤ (roundSqrt q : ℚ) := by
        exact_mod_cast Nat.one_le_iff_ne_zero.mpr (by omega)
      nlinarith
    · have hup := roundSqrt_upper q hq
      have hcast : ((roundSqrt q : ℚ)) + 1 ≤ (n : ℚ) := by exact_mod_cast hlt
      nlinarith
  · exact heq
  · exfalso
    have hcast : ((n : ℚ)) + 1 ≤ (roundSqrt q : ℚ) := by exact_mod_cast hgt
    have hn0 : (0 : ℚ) ≤ (n : ℚ) := by positivity
    nlinarith

theorem roundSqrt_eq_round_sqrt (q : ℚ) (hq : 0 ≤ q) :
    (roundSqrt q : ℤ) = round (Real.sqrt (q : ℝ)) := by
  have hqR : (0 : ℝ) ≤ (q : ℝ) := by exact_mod_cast hq
  have hupQ := roundSqrt_upper q hq
  have upper : Real.sqrt (q : ℝ) < (roundSqrt q : ℝ) + 1 / 2 := by
    rw [Real.sqrt_lt' (by positivity)]
    have : ((q : ℚ) : ℝ) < (((roundSqrt q : ℚ) + 1 / 2) ^ 2 : ℚ) := by
      exact_mod_cast hupQ
    push_cast at this ⊢
    linarith
  have lower : (roundSqrt q : ℝ) - 1 / 2 ≤ Real.sqrt (q : ℝ) := by
    rcases roundSqrt_lower q hq with h0 | hb
    · rw [h0]
      have := Real.sqrt_nonneg (q : ℝ)
      push_cast
      linarith
    · rcases Nat.eq_zero_or_pos (roundSqrt q) with h0 | hpos
      · rw [h0]
        have := Real.sqrt_nonneg (q : ℝ)
        push_cast
        linarith
      · have hbR : ((roundSqrt q : ℝ) - 1 / 2) ^ 2 ≤ (q : ℝ) := by
          have : ((((roundSqrt q : ℚ) - 1 / 2) ^ 2 : ℚ) : ℝ) ≤ ((q : ℚ) : ℝ) := by
            exact_mod_cast hb
          push_cast at this ⊢
          linarith
        have hnn : (0 : ℝ) ≤ (roundSqrt q : ℝ) - 1 / 2 := by
          have : (1 : ℝ) ≤ (roundSqrt q : ℝ) := by exact_mod_cast hpos
          linarith
        exact (Real.le_sqrt hnn hqR).mpr hbR
  rw [round_eq]
  symm
  rw [Int.floor_eq_iff]
  constructor
  · push_cast
    linarith
  · push_cast
    linarith

/-! ## Stable sort lemmas -/

theorem mem_insertK {α β : Type} [LinearOrder β] (key : α → β) (x a : α)
    (l : List α) : a ∈ insertK key x l ↔ a = x ∨ a ∈ l := by
  induction l with
  | nil => simp [insertK]
  | cons y ys ih =>
      unfold insertK
      split
      · simp only [List.mem_cons, ih]
        tauto
      · simp only [List.mem_cons]

theorem pairwise_insertK {α β : Type} [LinearOrder β] (key : α → β) (x : α)
    (l : List α) (h : l.Pairwise fun a b => key a ≤ key b) :
    (insertK key x l).Pairwise fun a b => key a ≤ key b := by
  induction l with
  | nil => simp [insertK]
  | cons y ys ih =>
      rcases List.pairwise_cons.mp h with ⟨hy, hys⟩
      unfold insertK
      split
      · next hlt =>
          refine List.pairwise_cons.mpr ⟨?_, ih hys⟩
          intro b hb
          rcases (mem_insertK key x b ys).mp hb with rfl | hbys
          · exact le_of_lt hlt
          · exact hy b hbys
      · next hnlt =>
          refine List.pairwise_cons.mpr ⟨?_, h⟩
          intro b hb
          rcases List.mem_cons.mp hb with rfl | hbys
          · exact le_of_not_lt hnlt
          · exact le_trans (le_of_not_lt hnlt) (hy b hbys)

theorem pairwise_sortK {α β : Type} [LinearOrder β] (key : α → β)
    (l : List α) : (sortK key l).Pairwise fun a b => key a ≤ key b := by
  induction l with
  | nil => simp [sortK]
  | cons x xs ih => exact pairwise_insertK key x _ ih

theorem mem_sortK {α β : Type} [LinearOrder β] (key : α → β) (a : α)
    (l : List α) : a ∈ sortK key l ↔ a ∈ l := by
  induction l with
  | nil => simp [sortK]
  | cons x xs ih =>
      unfold sortK
      rw [mem_insertK, ih, List.mem_cons]

/-! ## Store and sync lemmas -/

theorem mem_upsertRow (r a : SpawnRow) (db : Store) (h : a ∈ upsertRow r db) :
    a = r ∨ a ∈ db := by
  induction db with
  | nil => simpa [upsertRow] using h
  | cons x xs ih =>
      unfold upsertRow at h
      split at h
      · rcases List.mem_cons.mp h with rfl | hx
        · exact .inl rfl
        · exact .inr (List.mem_cons_of_mem _ hx)
      · split at h
        · rcases List.mem_cons.mp h with rfl | hx
          · exact .inl rfl
          · exact .inr hx
        · rcases List.mem_cons.mp h with rfl | hx
          · exact .inr (List.mem_cons_self _ _)
          · rcases ih hx with rfl | hxs
            · exact .inl rfl
            · exact .inr (List.mem_cons_of_mem _ hxs)

theorem lookupId_upsert (r : SpawnRow) (db : Store) (i : ℤ) :
    lookupId i (upsertRow r db) =
      if r.id = i then some r else lookupId i db := by
  induction db with
  | nil => simp [upsertRow, lookupId]
  | cons x xs ih =>
      unfold upsertRow
      by_cases h1 : x.id = r.id
      · simp only [if_pos h1]
        by_cases h2 : r.id = i
        · simp [h2, lookupId]
        · have hx : ¬ x.id = i := by omega
          simp [h2, lookupId, hx]
      · simp only [if_neg h1]
        by_cases hlt : r.id < x.id
        · simp only [if_pos hlt]
          by_cases h2 : r.id = i
          · simp [h2, lookupId]
          · simp [h2, lookupId]
        · simp only [if_neg hlt]
          by_cases hx : x.id = i
          · have h2 : ¬ r.id = i := by omega
            simp [hx, h2, lookupId]
          · simp [hx, lookupId, ih]

theorem upsert_sorted (r : SpawnRow) (db : Store) (h : StoreSorted db) :
    StoreSorted (upsertRow r db) := by
  unfold StoreSorted at h ⊢
  induction db with
  | nil => simp [upsertRow]
  | cons x xs ih =>
      rcases List.pairwise_cons.mp h with ⟨hx, hxs⟩
      unfold upsertRow
      by_cases h1 : x.id = r.id
      · simp only [if_pos h1]
        refine List.pairwise_cons.mpr ⟨?_, hxs⟩
        intro b hb
        have := hx b hb
        omega
      · simp only [if_neg h1]
        by_cases hlt : r.id < x.id
        · simp only [if_pos hlt]
          refine List.pairwise_cons.mpr ⟨?_, h⟩
          intro b hb
          rcases List.mem_cons.mp hb with rfl | hbxs
          · exact hlt
          · exact lt_trans hlt (hx b hbxs)
        · simp only [if_neg hlt]
          refine List.pairwise_cons.mpr ⟨?_, ih hxs⟩
          intro b hb
          rcases mem_upsertRow r b xs hb with rfl | hbxs
          · omega
          · exact hx b hbxs

theorem syncAux_inserted (t : ℤ) (feed : List JVal) :
    ∀ (db : Store) (ins sk : ℕ),
      (syncAux t feed db ins sk).2.1 = ins + feed.countP okRec := by
  induction feed with
  | nil => intro db ins sk; simp [syncAux]
  | cons s rest ih =>
      intro db ins sk
      unfold syncAux
      cases hro : recordOutcome s with
      | error e =>
          rw [ih, List.countP_cons]
          have hok : okRec s = false := by simp [okRec, hro]
          rw [hok]
          norm_num
      | ok pr =>
          rw [ih, List.countP_cons]
          have hok : okRec s = true := by simp [okRec, hro]
          rw [hok]
          norm_num
          omega

theorem syncAux_skipped (t : ℤ) (feed : List JVal) :
    ∀ (db : Store) (ins sk : ℕ),
      (syncAux t feed db ins sk).2.2 = sk + feed.countP (fun s => !okRec s) := by
  induction feed with
  | nil => intro db ins sk; simp [syncAux]
  | cons s rest ih =>
      intro db ins sk
      unfold syncAux
      cases hro : recordOutcome s with
      | error e =>
          rw [ih, List.countP_cons]
          have hok : okRec s = false := by simp [okRec, hro]
          rw [hok]
          norm_num
          omega
      | ok pr =>
          rw [ih, List.countP_cons]
          have hok : okRec s = true := by simp [okRec, hro]
          rw [hok]
          norm_num

theorem oor_none {α : Type} (a : Option α) : oor a none = a := by
  cases a <;> rfl

theorem oor_assoc {α : Type} (a b c : Option α) :
    oor (oor a b) c = oor a (oor b c) := by
  cases a <;> rfl

theorem oor_self {α : Type} (a b : Option α) : oor a (oor a b) = oor a b := by
  cases a <;> rfl

theorem map_oor {α γ : Type} (f : α → γ) (a b : Option α) :
    (oor a b).map f = oor (a.map f) (b.map f) := by
  cases a <;> rfl

theorem headMatch_strip (t u i : ℤ) (s : JVal) :
    (headMatch t i s).map stripRow = (headMatch u i s).map stripRow := by
  unfold headMatch
  cases recordOutcome s with
  | error e => rfl
  | ok pr =>
      rcases pr with ⟨oid, data⟩
      cases oid with
      | none => rfl
      | some j =>
          by_cases hj : j = i <;> simp [hj, stripRow]

theorem lastMatch_strip (t u i : ℤ) (feed : List JVal) :
    (lastMatch t i feed).map stripRow = (lastMatch u i feed).map stripRow := by
  induction feed with
  | nil => rfl
  | cons s rest ih =>
      unfold lastMatch
      rw [map_oor, map_oor, ih, headMatch_strip t u]

theorem syncAux_lookup (t : ℤ) (feed : List JVal) :
    ∀ (db : Store) (ins sk : ℕ) (i : ℤ),
      (∀ s ∈ feed, isAuto s = false) →
      lookupId i (syncAux t feed db ins sk).1 =
        oor (lastMatch t i feed) (lookupId i db) := by
  induction feed with
  | nil => intro db ins sk i _; simp [syncAux, lastMatch, oor]
  | cons s rest ih =>
      intro db ins sk i hauto
      have hauto' : ∀ x ∈ rest, isAuto x = false := fun x hx =>
        hauto x (List.mem_cons_of_mem _ hx)
      unfold syncAux lastMatch
      cases hro : recordOutcome s with
      | error e =>
          rw [ih db ins (sk + 1) i hauto']
          have hh : headMatch t i s = none := by unfold headMatch; rw [hro]
          rw [hh, oor_none]
      | ok pr =>
          rcases pr with ⟨oid, data⟩
          cases oid with
          | none =>
              exfalso
              have := hauto s (List.mem_cons_self _ _)
              unfold isAuto at this
              rw [hro] at this
              simp at this
          | some j =>
              rw [ih _ (ins + 1) sk i hauto', lookupId_upsert]
              have hh : headMatch t i s =
                  if j = i then some ⟨j, data, t⟩ else none := by
                unfold headMatch; rw [hro]
              rw [hh, oor_assoc]
              by_cases hj : j = i
              · subst hj
                simp [oor]
              · simp [hj, oor]

theorem syncAux_sorted (t : ℤ) (feed : List JVal) :
    ∀ (db : Store) (ins sk : ℕ), StoreSorted db →
      StoreSorted (syncAux t feed db ins sk).1 := by
  induction feed with
  | nil => intro db ins sk h; simpa [syncAux] using h
  | cons s rest ih =>
      intro db ins sk h
      unfold syncAux
      cases recordOutcome s with
      | error e => exact ih db ins (sk + 1) h
      | ok pr => exact ih _ (ins + 1) sk (upsert_sorted _ _ h)

theorem countP_not_add {α : Type} (p : α → Bool) (l : List α) :
    l.countP p + l.countP (fun a => !p a) = l.length := by
  induction l with
  | nil => rfl
  | cons a l ih =>
      rw [List.countP_cons, List.countP_cons, List.length_cons]
      cases hp : p a
      · norm_num
        omega
      · norm_num
        omega

/-! ## Claim theorems

Each claim of the specification audit gets one theorem below (with a
counterexample where the claim as stated fails on the code, and a witness
instantiating every theorem that carries hypotheses). -/

/-- C1 (counterexample).  The claim says a record missing its id is
skipped, with `skipped` incremented by exactly 1.  In the source the id
column is `id INTEGER PRIMARY KEY`, a rowid alias: binding `None` there
makes SQLite auto-assign a fresh rowid instead of raising — concretely,
syncing the one-record feed `[recNoId]` (no `Id` key) into an empty store
yields inserted = 1 and skipped = 0 (not 1), and the record lands in the
store under the auto-assigned id 1. -/
theorem c1_counterexample :
    (sync [recNoId] 0 []).2.2 = 0 ∧ (sync [recNoId] 0 []).2.2 ≠ 1 ∧
    (sync [recNoId] 0 []).2.1 = 1 ∧
    ((sync [recNoId] 0 []).1.map fun r => r.id) = [1] := by
  refine ⟨by decide, by decide, by decide, by decide⟩

/-- C1 (amended).  A record whose `Id` is absent or null but which is
otherwise well-formed is not skipped: the insert succeeds with the
store-assigned rowid `newId db` (one more than the largest id in use), the
sync does not fail, `inserted` increments by exactly 1 for that record and
`skipped` is unchanged, and processing continues with the rest of the
feed. -/
theorem c1_theorem (s : JVal) (data : RowData) (t : ℤ) (db : Store)
    (ins sk : ℕ) (rest : List JVal)
    (h : recordOutcome s = .ok (none, data)) :
    syncAux t (s :: rest) db ins sk =
      syncAux t rest (upsertRow ⟨newId db, data, t⟩ db) (ins + 1) sk ∧
    (sync [s] t db).2.1 = 1 ∧ (sync [s] t db).2.2 = 0 := by
  refine ⟨?_, ?_, ?_⟩
  · simp only [syncAux, h]
  · unfold sync
    rw [syncAux_inserted]
    simp [List.countP_cons, okRec, h]
  · unfold sync
    rw [syncAux_skipped]
    simp [List.countP_cons, okRec, h]

/-- C1 (witness): instantiating the amended claim at the concrete
record `recNoId` in an empty store at time 5. -/
theorem c1_witness :
    (sync [recNoId] 5 []).2.1 = 1 ∧ (sync [recNoId] 5 []).2.2 = 0 := by
  have h := c1_theorem recNoId _ 5 [] 0 0 [] rfl
  exact ⟨h.2.1, h.2.2⟩

/-- C2 (counterexample).  The claim says running the Synchronizer twice
with an identical feed yields the same store content and that every record
is upserted keyed by its id with no duplication.  Both parts fail on the
code: (a) a feed record with no id is auto-assigned a fresh rowid on each
run, so running the same one-record feed twice leaves two copies in the
store; (b) even for an id-bearing record, `INSERT OR REPLACE` re-applies
the `created_at` default on the second run, so the stored row differs
between runs when the runs happen at different times (100 vs 200). -/
theorem c2_counterexample :
    (sync [recNoId] 0 (sync [recNoId] 0 []).1).1.length = 2 ∧
    (sync [recNoId] 0 []).1.length = 1 ∧
    ((lookupId 1 (sync [recFull] 200 (sync [recFull] 100 []).1).1).map
        fun r => r.createdAt) = some 200 ∧
    ((lookupId 1 (sync [recFull] 100 []).1).map fun r => r.createdAt) =
      some 100 := by
  refine ⟨by decide, by decide, by decide, by decide⟩

/-- C2 (amended).  For a feed in which no record inserts with an
auto-assigned id (every record either carries an explicit id or errors
out), running the sync twice gives: the same inserted count, the same
skipped count, a store whose content — read as the keyed map from id to
record, compared modulo the `created_at` column, which `INSERT OR REPLACE`
refreshes on every replace — is unchanged by the second run, and a store
that remains strictly rowid-sorted (hence no duplicated id).  Each record
is upserted keyed by its id; the last record with a given id fully
determines the stored row (replace semantics). -/
theorem c2_theorem (feed : List JVal) (t1 t2 : ℤ) (d0 : Store)
    (hsor : StoreSorted d0) (hauto : ∀ s ∈ feed, isAuto s = false) :
    (sync feed t2 (sync feed t1 d0).1).2.1 = (sync feed t1 d0).2.1 ∧
    (sync feed t2 (sync feed t1 d0).1).2.2 = (sync feed t1 d0).2.2 ∧
    (∀ i, (lookupId i (sync feed t2 (sync feed t1 d0).1).1).map stripRow =
          (lookupId i (sync feed t1 d0).1).map stripRow) ∧
    StoreSorted (sync feed t2 (sync feed t1 d0).1).1 := by
  refine ⟨?_, ?_, ?_, ?_⟩
  · unfold sync
    rw [syncAux_inserted, syncAux_inserted]
  · unfold sync
    rw [syncAux_skipped, syncAux_skipped]
  · intro i
    unfold sync
    rw [syncAux_lookup t2 feed _ 0 0 i hauto, syncAux_lookup t1 feed d0 0 0 i hauto]
    rw [map_oor, map_oor, lastMatch_strip t2 t1]
    exact oor_self _ _
  · exact syncAux_sorted t2 feed _ 0 0 (syncAux_sorted t1 feed d0 0 0 hsor)

/-- C2 (witness): the amended claim instantiated with the single
explicit-id record `recFull`, an empty initial store, and run times 10 and
20. -/
theorem c2_witness :
    (sync [recFull] 20 (sync [recFull] 10 []).1).2.1 =
      (sync [recFull] 10 []).2.1 ∧
    (∀ i, (lookupId i (sync [recFull] 20 (sync [recFull] 10 []).1).1).map stripRow =
          (lookupId i (sync [recFull] 10 []).1).map stripRow) := by
  have h := c2_theorem [recFull] 10 20 [] (by simp [StoreSorted]) (by decide)
  exact ⟨h.1, h.2.2.1⟩

/-- C6 (confirmed).  The `try` block at lines 20-27 covers the fetch and
the top-level decode; on failure the script prints and calls `exit(1)`
before `sqlite3.connect`, so the store is untouched and the outcome is the
distinct fatal signal.  On a successfully decoded feed the import instead
always reaches the loop and reports the aggregate counts (never the fatal
signal), which is the per-record-skip path the claim distinguishes. -/
theorem c6_theorem (db : Store) (t : ℤ) :
    runImport (.error ()) t db = (db, .error ()) ∧
    ∀ feed, runImport (.ok feed) t db =
      ((sync feed t db).1, .ok (sync feed t db).2) := by
  exact ⟨rfl, fun feed => rfl⟩

/-- C7 (confirmed).  Over a top-level array, the loop processes every
element: elements that raise during extraction or insertion are exactly
the ones counted in `skipped`, the others are exactly the ones counted in
`inserted`, the two counts partition the feed (processing continues past
every error), and the sync returns the aggregate counts rather than
raising — `sync` is a total function into counts. -/
theorem c7_theorem (feed : List JVal) (t : ℤ) (db : Store) :
    (sync feed t db).2.1 = feed.countP okRec ∧
    (sync feed t db).2.2 = feed.countP (fun s => !okRec s) ∧
    (sync feed t db).2.1 + (sync feed t db).2.2 = feed.length := by
  have h1 : (sync feed t db).2.1 = feed.countP okRec := by
    unfold sync; rw [syncAux_inserted]; omega
  have h2 : (sync feed t db).2.2 = feed.countP (fun s => !okRec s) := by
    unfold sync; rw [syncAux_skipped]; omega
  refine ⟨h1, h2, ?_⟩
  rw [h1, h2]
  exact countP_not_add okRec feed

/-- C8 (counterexample).  The claim says the creation timestamp keeps its
first-insert value on replace.  `INSERT OR REPLACE` deletes the old row
and inserts a new one, and since the insert never lists `created_at`, the
column default (`strftime('%s','now')`) is evaluated again at replace
time: re-importing id 1 at time 200 over a store created at time 100
leaves `created_at = 200`, not 100. -/
theorem c8_counterexample :
    ((lookupId 1 (sync [recFull] 200 (sync [recFull] 100 []).1).1).map
        fun r => r.createdAt) = some 200 ∧
    ((lookupId 1 (sync [recFull] 200 (sync [recFull] 100 []).1).1).map
        fun r => r.createdAt) ≠ some 100 := by
  refine ⟨by decide, by decide⟩

/-- C8 (amended).  On an upsert that replaces an existing spawn record,
the creation timestamp column is refreshed: the SQL default applies on
every insert `INSERT OR REPLACE` performs, including the replacing one, so
the stored row after re-import at time `t` is exactly the newly extracted
data with `createdAt = t` — the first-insert value is not kept.  (The
equation holds whether or not a prior row existed; the hypothesis pins the
replace case the claim is about.) -/
theorem c8_theorem (s : JVal) (j : ℤ) (data : RowData) (t : ℤ) (db : Store)
    (h : recordOutcome s = .ok (some j, data))
    (_hex : ∃ r0, lookupId j db = some r0) :
    lookupId j (sync [s] t db).1 = some ⟨j, data, t⟩ ∧
    (⟨j, data, t⟩ : SpawnRow).createdAt = t := by
  refine ⟨?_, rfl⟩
  unfold sync syncAux
  rw [h]
  unfold syncAux
  rw [lookupId_upsert]
  simp

/-- C8 (witness): the amended claim instantiated at the re-import of
`recFull` (id 1) at time 200 over the store previously synced at time
100. -/
theorem c8_witness :
    ((lookupId 1 (sync [recFull] 200 (sync [recFull] 100 []).1).1).map
        fun r => r.createdAt) = some 200 := by
  rw [(c8_theorem recFull 1 _ 200 (sync [recFull] 100 []).1 rfl ⟨_, rfl⟩).1]
  rfl

theorem sqDistTo_nonneg (o : ℚ × ℚ) (r : SpawnRow) : 0 ≤ sqDistTo o r :=
  add_nonneg (mul_self_nonneg _) (mul_self_nonneg _)

theorem mem_nearestQuery (db : Store) (p : String) (o : ℚ × ℚ) (lim : ℕ)
    (pr : SpawnRow × ℕ) (h : pr ∈ nearestQuery db p o lim) :
    pr.1 ∈ db ∧ pr.1.data.planet = SVal.text p ∧ pr.1.data.lon ≠ SVal.null ∧
      pr.1.data.lat ≠ SVal.null ∧ pr.2 = roundSqrt (sqDistTo o pr.1) := by
  unfold nearestQuery at h
  have h1 := List.mem_of_mem_take h
  rw [mem_sortK] at h1
  rcases List.mem_map.mp h1 with ⟨r, hr, heq⟩
  rcases List.mem_filter.mp hr with ⟨hrdb, hcond⟩
  have hc := of_decide_eq_true hcond
  subst heq
  exact ⟨hrdb, hc.1, hc.2.1, hc.2.2, rfl⟩

theorem mem_hpBandQuery (mobs : List MobRow) (p : String)
    (minHp maxHp hp : ℚ) (lim : ℕ) (pr : MobRow × ℚ)
    (h : pr ∈ hpBandQuery mobs p minHp maxHp hp lim) :
    pr.1 ∈ mobs ∧ minHp ≤ pr.1.hp ∧ pr.1.hp ≤ maxHp ∧ pr.1.planet = p ∧
      pr.2 = |pr.1.hp - hp| := by
  unfold hpBandQuery at h
  have h1 := List.mem_of_mem_take h
  rw [mem_sortK] at h1
  rcases List.mem_map.mp h1 with ⟨m, hm, heq⟩
  rcases List.mem_filter.mp hm with ⟨hmdb, hcond⟩
  have hc := of_decide_eq_true hcond
  subst heq
  exact ⟨hmdb, hc.1, hc.2.1, hc.2.2, rfl⟩

theorem nearestQuery_storeC3_eval :
    nearestQuery storeC3 "Calypso" (0, 0) 10 = [(rowA, 3), (rowB, 3)] := by
  have h10 : sqDistTo (0, 0) rowA = 10 := by
    norm_num [sqDistTo, toNum, rowA]
  have h9 : sqDistTo (0, 0) rowB = 9 := by
    norm_num [sqDistTo, toNum, rowB]
  have rs10 : roundSqrt 10 = 3 := by
    refine roundSqrt_eq_of 10 3 (by norm_num) (.inr (by norm_num)) (by norm_num)
  have rs9 : roundSqrt 9 = 3 := by
    refine roundSqrt_eq_of 9 3 (by norm_num) (.inr (by norm_num)) (by norm_num)
  unfold nearestQuery
  rw [show storeC3.filter (fun r =>
      decide (r.data.planet = SVal.text "Calypso" ∧
        r.data.lon ≠ SVal.null ∧ r.data.lat ≠ SVal.null)) = [rowA, rowB] from rfl]
  rw [List.map_cons, List.map_cons, List.map_nil, h10, h9, rs10, rs9]
  rfl

/-- C3 (counterexample).  The claim says result ordering compares the
full-precision (unrounded) distances.  In the source the query is
`SELECT ..., ROUND(SQRT(...)) AS distance ... ORDER BY distance`, and
SQLite resolves `ORDER BY distance` to the output alias — the ROUNDED
value.  In `storeC3` the record at squared distance 10 (true distance
√10 ≈ 3.16, id 1) and the record at squared distance 9 (true distance 3,
id 2) both round to 3; the tie is left in rowid order, so the query
returns the strictly farther record first, violating full-precision
ordering. -/
theorem c3_counterexample :
    ((nearestQuery storeC3 "Calypso" (0, 0) 10).map fun pr => (pr.1.id, pr.2)) =
      [(1, 3), (2, 3)] ∧
    Real.sqrt ((sqDistTo (0, 0) rowB : ℚ) : ℝ) <
      Real.sqrt ((sqDistTo (0, 0) rowA : ℚ) : ℝ) := by
  constructor
  · rw [nearestQuery_storeC3_eval]
    rfl
  · have h10 : sqDistTo (0, 0) rowA = 10 := by
      norm_num [sqDistTo, toNum, rowA]
    have h9 : sqDistTo (0, 0) rowB = 9 := by
      norm_num [sqDistTo, toNum, rowB]
    rw [h9, h10]
    apply Real.sqrt_lt_sqrt
    · norm_num
    · norm_num

/-- C3 (amended).  Every returned display distance equals
`round(sqrt((lon - origin.lon)² + (lat - origin.lat)²))` — the planar
Euclidean distance of the claim, rounded to the nearest whole unit — but
the ordering of the results is by this ROUNDED distance (the `ORDER BY`
resolves to the rounded output alias), not by the full-precision distance:
results are sorted non-decreasing in the rounded value, with rounding ties
left in scan order. -/
theorem c3_theorem (db : Store) (p : String) (o : ℚ × ℚ) (lim : ℕ) :
    (∀ pr ∈ nearestQuery db p o lim,
        (pr.2 : ℤ) = round (Real.sqrt ((sqDistTo o pr.1 : ℚ) : ℝ))) ∧
    (nearestQuery db p o lim).Pairwise (fun a b => a.2 ≤ b.2) := by
  constructor
  · intro pr hpr
    have h := mem_nearestQuery db p o lim pr hpr
    rw [h.2.2.2.2]
    exact roundSqrt_eq_round_sqrt _ (sqDistTo_nonneg o pr.1)
  · unfold nearestQuery
    exact List.Pairwise.sublist (List.take_sublist _ _) (pairwise_sortK _ _)

/-- C3 (witness): in the two-row store, the displayed distance 3 of the
record at squared distance 9 equals the rounded true distance. -/
theorem c3_witness :
    ((3 : ℕ) : ℤ) = round (Real.sqrt ((sqDistTo (0, 0) rowB : ℚ) : ℝ)) := by
  have hm : ((rowB, 3) : SpawnRow × ℕ) ∈ nearestQuery storeC3 "Calypso" (0, 0) 10 := by
    rw [nearestQuery_storeC3_eval]
    exact List.mem_cons_of_mem _ (List.mem_singleton_self _)
  exact (c3_theorem storeC3 "Calypso" (0, 0) 10).1 (rowB, 3) hm

/-- C4 (confirmed).  For every store, planet, origin and limit: the result
sequence is sorted non-decreasing by the computed distance value attached
to each row, has length at most the limit, and every returned record
matches the requested planet and has both coordinate cells non-NULL (NULL
coordinates are excluded by the WHERE clause before any arithmetic, so
they are never treated as zero); the query on an empty store returns the
empty sequence as an ordinary (non-exceptional) value. -/
theorem c4_theorem (db : Store) (p : String) (o : ℚ × ℚ) (lim : ℕ) :
    (nearestQuery db p o lim).Pairwise (fun a b => a.2 ≤ b.2) ∧
    (nearestQuery db p o lim).length ≤ lim ∧
    (∀ pr ∈ nearestQuery db p o lim,
        pr.1.data.planet = SVal.text p ∧ pr.1.data.lon ≠ SVal.null ∧
        pr.1.data.lat ≠ SVal.null ∧ pr.2 = roundSqrt (sqDistTo o pr.1)) ∧
    nearestQuery [] p o lim = [] := by
  refine ⟨?_, ?_, ?_, by unfold nearestQuery; simp [sortK]⟩
  · unfold nearestQuery
    exact List.Pairwise.sublist (List.take_sublist _ _) (pairwise_sortK _ _)
  · unfold nearestQuery
    exact List.length_take_le _ _
  · intro pr hpr
    have h := mem_nearestQuery db p o lim pr hpr
    exact ⟨h.2.1, h.2.2.1, h.2.2.2.1, h.2.2.2.2⟩

/-- C4 (witness): the theorem instantiated at the concrete two-row store;
the head result satisfies all the per-record conditions. -/
theorem c4_witness :
    rowA.data.planet = SVal.text "Calypso" ∧ rowA.data.lon ≠ SVal.null ∧
    rowA.data.lat ≠ SVal.null ∧ (3 : ℕ) = roundSqrt (sqDistTo (0, 0) rowA) := by
  have hm : ((rowA, 3) : SpawnRow × ℕ) ∈ nearestQuery storeC3 "Calypso" (0, 0) 10 := by
    rw [nearestQuery_storeC3_eval]
    exact List.mem_cons_self _ _
  exact (c4_theorem storeC3 "Calypso" (0, 0) 10).2.2.1 (rowA, 3) hm

/-- C5 (confirmed).  For every catalog, planet, observed HP > 0, tolerance
t ≥ 0 and limit: every returned candidate's HP lies in the inclusive band
`[hp*(1-t), hp*(1+t)]` and matches the planet, the attached score is the
absolute HP delta, results are sorted non-decreasing by that delta, at
most `limit` entries are returned, and a catalog mob of the right planet
whose HP equals either band edge exactly passes the band filter (BETWEEN
is inclusive).  The script instantiates t = 0.2 and limit 5. -/
theorem c5_theorem (mobs : List MobRow) (p : String) (hp t : ℚ) (lim : ℕ)
    (hhp : 0 < hp) (ht : 0 ≤ t) :
    (∀ pr ∈ matchByHP mobs p hp t lim,
        hp * (1 - t) ≤ pr.1.hp ∧ pr.1.hp ≤ hp * (1 + t) ∧ pr.1.planet = p ∧
        pr.2 = |pr.1.hp - hp|) ∧
    (matchByHP mobs p hp t lim).Pairwise (fun a b => a.2 ≤ b.2) ∧
    (matchByHP mobs p hp t lim).length ≤ lim ∧
    (∀ m ∈ mobs, m.planet = p → m.hp = hp * (1 + t) ∨ m.hp = hp * (1 - t) →
        m ∈ hpBandRows mobs p (hp * (1 - t)) (hp * (1 + t))) := by
  refine ⟨?_, ?_, ?_, ?_⟩
  · intro pr hpr
    have h := mem_hpBandQuery mobs p (hp * (1 - t)) (hp * (1 + t)) hp lim pr hpr
    exact ⟨h.2.1, h.2.2.1, h.2.2.2.1, h.2.2.2.2⟩
  · unfold matchByHP hpBandQuery
    exact List.Pairwise.sublist (List.take_sublist _ _) (pairwise_sortK _ _)
  · unfold matchByHP hpBandQuery
    exact List.length_take_le _ _
  · intro m hm hpl hedge
    unfold hpBandRows
    refine List.mem_filter.mpr ⟨hm, ?_⟩
    refine decide_eq_true ?_
    rcases hedge with he | he
    · exact ⟨by rw [he]; nlinarith, by rw [he], hpl⟩
    · exact ⟨by rw [he], by rw [he]; nlinarith, hpl⟩

/-- C5 (witness): the catalog mob with HP 100 on Calypso sits exactly on
the lower band edge for observed HP 125 at tolerance 0.2
(125·0.8 = 100) and is admitted by the band filter. -/
theorem c5_witness :
    mob100 ∈ hpBandRows [mob100] "Calypso" (125 * (1 - 0.2)) (125 * (1 + 0.2)) := by
  exact (c5_theorem [mob100] "Calypso" 125 0.2 5 (by norm_num) (by norm_num)).2.2.2
    mob100 (List.mem_singleton_self _) rfl (Or.inr (by norm_num [mob100]))

namespace ReadSession

theorem trailing_closed (db : SessionDB) : trailing false db = .error () := rfl

/-- C9 (code_bug evaluation).  On a database exhibiting every missing-data
case at once — a session whose stats blob is the empty object, zero
events, and a loadout with a NULL cost blob — the initial summary itself
is tolerant (stats report zeros, the event breakdown is empty with zero
totals), but the script as a whole still fails: the statements after the
`conn.close()` at line 80, including the loadout cost read the claim is
about, always raise on the closed connection. -/
theorem c9_theorem :
    (runScript dbC9).map (fun pr =>
      (pr.1.statsOut.map fun st => (st.kills, st.lootValue, st.ammoCost, st.profit),
       pr.1.eventCounts, pr.1.totalEvents, pr.1.gpsCount, okE pr.2)) =
      some (some (0, 0, 0, 0), [], 0, 0, false) := by
  rfl

/-- C10 (confirmed).  Every run of the script that completes the initial
summary (i.e. finds at least one session) then executes the schema
inspection, recent-sessions listing and loadout read on the connection
closed at line 80, so the trailing portion of the script always raises and
never completes successfully. -/
theorem c10_theorem (db : SessionDB) (summ : Summary)
    (tr : Except Unit TrailingOut) (h : runScript db = some (summ, tr)) :
    tr = .error () := by
  unfold runScript at h
  cases hmr : mostRecent db.sessions with
  | none => rw [hmr] at h; exact absurd h (by simp)
  | some s =>
      rw [hmr] at h
      have h1 := Option.some_inj.mp h
      have h2 : trailing false db = tr := congrArg Prod.snd h1
      rw [← h2]
      rfl

/-- C10 (witness): the one-session database `dbC10` completes its summary
and its trailing portion fails. -/
theorem c10_witness :
    (runScript dbC10).map (fun pr => pr.2) = some (.error ()) := by
  have h := c10_theorem dbC10 (summarize dbC10 ⟨2, "T", some 4, 60, 9, none⟩)
    (trailing false dbC10) rfl
  rw [show runScript dbC10 =
      some (summarize dbC10 ⟨2, "T", some 4, 60, 9, none⟩, trailing false dbC10) from rfl]
  rw [h]
  rfl

end ReadSession

end Artemis


